import Mathlib

/-!
Verification development for the Notepadtools repository (src/app.js).

The embedding models the local data store and query/merge engine:
the note/tool records, the repository save/delete/toggle operations
with their in-memory mirror lists, the filter/search/sort/priority
query pipeline, and the import merge algorithm.

Conventions of the embedding:
- ISO-8601 timestamps are modeled as `Nat` (the ISO string order of
  valid dates is the chronological order used by the code through
  `new Date(x) - new Date(y)`).
- JavaScript strings are Lean `String`; `toLowerCase` is modeled by a
  per-character lowercase map, and `String.prototype.includes` by a
  substring test on the character list.
- Records created by the application always carry every field; records
  arriving from an imported JSON snapshot may lack fields, so import
  candidates are modeled by structures whose fields are all `Option`
  (`none` = the JSON object has no such own property, matching what
  `Object.assign` copies).
- Asynchronous store operations are modeled by threading the store
  value and a boolean success flag; a rejected promise is the `false`
  case, in which the function returns without performing the steps
  that follow the `await` in the source.
-/

namespace Notepad

/-- A note record as created by `createNote` (src/app.js lines 122-134):
all fields present. -/
structure Note where
  id : String
  title : String
  content : String
  tags : List String
  pinned : Bool
  archived : Bool
  createdAt : Nat
  updatedAt : Nat
deriving DecidableEq, Repr

/-- A tool record as created by `createTool` (src/app.js lines 386-397). -/
structure Tool where
  id : String
  name : String
  url : String
  description : String
  tags : List String
  favorite : Bool
  createdAt : Nat
  updatedAt : Nat
deriving DecidableEq, Repr

/-! ## String helpers modeling JavaScript primitives -/

/-- Model of `String.prototype.toLowerCase` (per-character lowering). -/
def jsToLower (s : String) : String := ⟨s.data.map Char.toLower⟩

/-- Substring test on character lists: `needleInfl h n` is true when the
list `n` occurs contiguously inside `h`. -/
def needleInfl : List Char → List Char → Bool
  | [], n => n.isEmpty
  | h :: t, n => n.isPrefixOf (h :: t) || needleInfl t n

/-- Model of `hay.includes(sub)` for JavaScript strings. -/
def jsIncludes (hay sub : String) : Bool := needleInfl hay.data sub.data

/-! ## The query pipeline (filterAndSortNotes / filterAndSortTools)

The source (src/app.js lines 171-215 and 434-479) computes, from a copy
of the mirror list:
1. the tag filter (skipped when `state.activeTagFilter` is falsy,
   i.e. null or the empty string);
2. the search filter on the lowercased search box value (skipped when
   that lowercased value is the empty string, which is falsy);
3. `Array.prototype.sort` with a comparator selected by the sort key
   (a stable sort; the default comparator returns 0, a stable no-op);
4. the pinned/favorite records, then the others, each group by
   `filter` which preserves relative order.
-/

/-- Step 1 for notes: `if (state.activeTagFilter) filtered = filtered.filter(note => note.tags.includes(state.activeTagFilter))`.
A JavaScript string is falsy exactly when it is empty, so an empty
tag filter skips the step. -/
def noteTagStep (tf : Option String) (l : List Note) : List Note :=
  match tf with
  | none => l
  | some t => if t = "" then l else l.filter (fun n => n.tags.contains t)

/-- The per-record search predicate for notes (src/app.js lines 182-186),
applied to the already-lowercased query `q`. -/
def noteMatches (q : String) (n : Note) : Bool :=
  jsIncludes (jsToLower n.title) q || jsIncludes (jsToLower n.content) q ||
    n.tags.any (fun tg => jsIncludes (jsToLower tg) q)

/-- Step 2 for notes: lowercase the raw search box value, skip when the
result is empty (falsy), otherwise filter. -/
def noteSearchStep (raw : String) (l : List Note) : List Note :=
  let q := jsToLower raw
  if q = "" then l else l.filter (noteMatches q)

/-- Model of `a.localeCompare(b)` as a three-way comparison. -/
def cmpStr (a b : String) : Int :=
  match compare a b with
  | .lt => -1
  | .eq => 0
  | .gt => 1

/-- The comparator selected by the notes sort key (src/app.js lines 191-208).
Timestamp cases return the numeric difference of the dates; the default
case returns 0. -/
def noteCmp (sortBy : String) (a b : Note) : Int :=
  match sortBy with
  | "updated-desc" => (b.updatedAt : Int) - (a.updatedAt : Int)
  | "updated-asc" => (a.updatedAt : Int) - (b.updatedAt : Int)
  | "created-desc" => (b.createdAt : Int) - (a.createdAt : Int)
  | "created-asc" => (a.createdAt : Int) - (b.createdAt : Int)
  | "title-asc" => cmpStr a.title b.title
  | "title-desc" => cmpStr b.title a.title
  | _ => 0

/-- Stable insertion of `x` into `l` under comparator `c`: `x` goes after
every element `y` with `c y x <= 0`, so elements comparing equal keep
their original relative order. -/
def insCmp (c : α → α → Int) (x : α) : List α → List α
  | [] => [x]
  | y :: ys => if c y x ≤ 0 then y :: insCmp c x ys else x :: y :: ys

/-- Model of `Array.prototype.sort(c)`: a stable sort under comparator
`c` (stability is required of `sort` since ES2019). With the default
comparator that always returns 0 this is the identity. -/
def jsSort (c : α → α → Int) (l : List α) : List α :=
  l.foldl (fun acc x => insCmp c x acc) []

/-- Step 3 for notes. -/
def noteSortStep (sortBy : String) (l : List Note) : List Note :=
  jsSort (noteCmp sortBy) l

/-- `filterAndSortNotes` (src/app.js lines 171-215). The inputs are the
mirror list `notes`, the active tag filter, the raw search box value and
the selected sort key. The final step keeps the pinned records first,
then the unpinned ones, both groups in sorted order. -/
def filterAndSortNotes (notes : List Note) (tf : Option String)
    (searchRaw sortBy : String) : List Note :=
  let s := noteSortStep sortBy (noteSearchStep searchRaw (noteTagStep tf notes))
  s.filter (fun n => n.pinned) ++ s.filter (fun n => !n.pinned)

/-- Step 1 for tools (src/app.js lines 437-440). -/
def toolTagStep (tf : Option String) (l : List Tool) : List Tool :=
  match tf with
  | none => l
  | some t => if t = "" then l else l.filter (fun n => n.tags.contains t)

/-- The per-record search predicate for tools (src/app.js lines 445-450):
name, description, url, or any tag. -/
def toolMatches (q : String) (n : Tool) : Bool :=
  jsIncludes (jsToLower n.name) q || jsIncludes (jsToLower n.description) q ||
    jsIncludes (jsToLower n.url) q ||
    n.tags.any (fun tg => jsIncludes (jsToLower tg) q)

/-- Step 2 for tools. -/
def toolSearchStep (raw : String) (l : List Tool) : List Tool :=
  let q := jsToLower raw
  if q = "" then l else l.filter (toolMatches q)

/-- The comparator selected by the tools sort key (src/app.js lines 455-472). -/
def toolCmp (sortBy : String) (a b : Tool) : Int :=
  match sortBy with
  | "updated-desc" => (b.updatedAt : Int) - (a.updatedAt : Int)
  | "updated-asc" => (a.updatedAt : Int) - (b.updatedAt : Int)
  | "created-desc" => (b.createdAt : Int) - (a.createdAt : Int)
  | "created-asc" => (a.createdAt : Int) - (b.createdAt : Int)
  | "name-asc" => cmpStr a.name b.name
  | "name-desc" => cmpStr b.name a.name
  | _ => 0

/-- Step 3 for tools. -/
def toolSortStep (sortBy : String) (l : List Tool) : List Tool :=
  jsSort (toolCmp sortBy) l

/-- `filterAndSortTools` (src/app.js lines 434-479). -/
def filterAndSortTools (tools : List Tool) (tf : Option String)
    (searchRaw sortBy : String) : List Tool :=
  let s := toolSortStep sortBy (toolSearchStep searchRaw (toolTagStep tf tools))
  s.filter (fun n => n.favorite) ++ s.filter (fun n => !n.favorite)

/-- The predicate "this note passes the search filter" for a raw search
box value: the step is skipped (everything passes) when the lowercased
value is empty, else the record must match. -/
def notePassSearch (raw : String) (n : Note) : Bool :=
  jsToLower raw = "" || noteMatches (jsToLower raw) n

/-- The predicate "this tool passes the search filter". -/
def toolPassSearch (raw : String) (n : Tool) : Bool :=
  jsToLower raw = "" || toolMatches (jsToLower raw) n

/-! ## Repository operations on well-formed records

`putInStore` on an IndexedDB object store whose key path is `id` is an
upsert keyed by `id`; `deleteFromStore` removes the record with the
given key and succeeds (resolves) whether or not the key is present.
A store is modeled as a list of records with `id` as the key.
-/

/-- Replace the first element satisfying `p` by `v` (models an in-place
assignment to the object that `find` / `findIndex` located). -/
def setFirst (p : α → Bool) (v : α) : List α → List α
  | [] => []
  | x :: xs => if p x then v :: xs else x :: setFirst p v xs

/-- `putInStore` on the notes collection: insert-or-replace keyed by `id`. -/
def putNoteStore (r : Note) (store : List Note) : List Note :=
  if store.any (fun x => x.id = r.id) then setFirst (fun x => x.id = r.id) r store
  else store ++ [r]

/-- `putInStore` on the tools collection. -/
def putToolStore (r : Tool) (store : List Tool) : List Tool :=
  if store.any (fun x => x.id = r.id) then setFirst (fun x => x.id = r.id) r store
  else store ++ [r]

/-- `saveNote` (src/app.js lines 141-155). Parameters:
`now` is the current time; `writeOk` says whether the `putInStore`
promise resolves (`false` = the store write fails and the code after
the `await` does not run); `aliased` says whether the note object being
saved is the same heap object as the mirror entry carrying its id (true
at every call site that saves an existing record, since those obtain the
record from the mirror); `store`/`mirror` are the persistent collection
and `state.notes`. Returns (store, mirror, success).

Line order of the source: the in-place `note.updatedAt = ...` mutation
happens first (visible in the mirror when aliased), then the store
write, then the findIndex/replace-or-push mirror list update. -/
def saveNote (now : Nat) (writeOk aliased : Bool) (store mirror : List Note)
    (note : Note) : List Note × List Note × Bool :=
  let note1 := { note with updatedAt := now }
  let mirror1 :=
    if aliased then
      mirror.map (fun n => if n.id = note.id then { n with updatedAt := now } else n)
    else mirror
  if writeOk then
    let store1 := putNoteStore note1 store
    let mirror2 :=
      if mirror1.any (fun n => n.id = note1.id) then
        setFirst (fun n => n.id = note1.id) note1 mirror1
      else mirror1 ++ [note1]
    (store1, mirror2, true)
  else (store, mirror1, false)

/-- `saveTool` (src/app.js lines 404-416), same shape as `saveNote`. -/
def saveTool (now : Nat) (writeOk aliased : Bool) (store mirror : List Tool)
    (tool : Tool) : List Tool × List Tool × Bool :=
  let tool1 := { tool with updatedAt := now }
  let mirror1 :=
    if aliased then
      mirror.map (fun n => if n.id = tool.id then { n with updatedAt := now } else n)
    else mirror
  if writeOk then
    let store1 := putToolStore tool1 store
    let mirror2 :=
      if mirror1.any (fun n => n.id = tool1.id) then
        setFirst (fun n => n.id = tool1.id) tool1 mirror1
      else mirror1 ++ [tool1]
    (store1, mirror2, true)
  else (store, mirror1, false)

/-- `deleteNote` after the confirm gate (src/app.js lines 157-169):
`deleteFromStore` on the notes collection removes the record with that key from
the store (a no-op for an absent key, and the request still succeeds),
then the mirror is filtered. Returns (store, mirror). -/
def deleteNote (store mirror : List Note) (id : String) : List Note × List Note :=
  (store.filter (fun n => !(n.id = id)), mirror.filter (fun n => !(n.id = id)))

/-- `deleteTool` after the confirm gate (src/app.js lines 418-424). -/
def deleteTool (store mirror : List Tool) (id : String) : List Tool × List Tool :=
  (store.filter (fun n => !(n.id = id)), mirror.filter (fun n => !(n.id = id)))

/-- `toggleFavorite` (src/app.js lines 426-432): find the tool in the
mirror; when absent, return without doing anything (no store call, no
state change, no error). When present, flip `favorite` in place on the
aliased object and call `saveTool`. -/
def toggleFavorite (now : Nat) (writeOk : Bool) (store mirror : List Tool)
    (id : String) : List Tool × List Tool × Bool :=
  match mirror.find? (fun t => t.id = id) with
  | none => (store, mirror, true)
  | some t =>
    let t1 := { t with favorite := !t.favorite }
    let mirror0 := setFirst (fun x => x.id = id) t1 mirror
    saveTool now writeOk true store mirror0 t1

/-! ## Import / export (src/app.js lines 638-715)

Records in an imported JSON snapshot are arbitrary JSON objects, so a
candidate record may lack any field: candidate structures carry every
field as an `Option`, `none` meaning the object has no such own
property. `Object.assign(existing, note)` copies exactly the own
properties of `note` over those of `existing`, which is the field-wise
`ovr` below. The mirrors are modeled with the same optional-field
shape, since a candidate lacking fields can be appended to the mirror
as is.
-/

/-- A note-shaped JSON object: every field optional. -/
structure CandNote where
  id : Option String := none
  title : Option String := none
  content : Option String := none
  tags : Option (List String) := none
  pinned : Option Bool := none
  archived : Option Bool := none
  createdAt : Option Nat := none
  updatedAt : Option Nat := none
deriving DecidableEq, Repr

/-- A tool-shaped JSON object: every field optional. -/
structure CandTool where
  id : Option String := none
  name : Option String := none
  url : Option String := none
  description : Option String := none
  tags : Option (List String) := none
  favorite : Option Bool := none
  createdAt : Option Nat := none
  updatedAt : Option Nat := none
deriving DecidableEq, Repr

/-- One field of `Object.assign(target, src)`: the field of `src` wins
when present, otherwise the field of `target` is left untouched. -/
def ovr (tgt src : Option α) : Option α :=
  match src with
  | some v => some v
  | none => tgt

/-- `Object.assign(existing, note)` for note-shaped objects. -/
def objAssignN (tgt src : CandNote) : CandNote where
  id := ovr tgt.id src.id
  title := ovr tgt.title src.title
  content := ovr tgt.content src.content
  tags := ovr tgt.tags src.tags
  pinned := ovr tgt.pinned src.pinned
  archived := ovr tgt.archived src.archived
  createdAt := ovr tgt.createdAt src.createdAt
  updatedAt := ovr tgt.updatedAt src.updatedAt

/-- `Object.assign(existing, tool)` for tool-shaped objects. -/
def objAssignT (tgt src : CandTool) : CandTool where
  id := ovr tgt.id src.id
  name := ovr tgt.name src.name
  url := ovr tgt.url src.url
  description := ovr tgt.description src.description
  tags := ovr tgt.tags src.tags
  favorite := ovr tgt.favorite src.favorite
  createdAt := ovr tgt.createdAt src.createdAt
  updatedAt := ovr tgt.updatedAt src.updatedAt

/-- `putInStore` on the notes collection for JSON-shaped records: upsert keyed by `id`. -/
def putCandNoteStore (r : CandNote) (store : List CandNote) : List CandNote :=
  if store.any (fun x => x.id = r.id) then setFirst (fun x => x.id = r.id) r store
  else store ++ [r]

/-- `putInStore` on the tools collection for JSON-shaped records. -/
def putCandToolStore (r : CandTool) (store : List CandTool) : List CandTool :=
  if store.any (fun x => x.id = r.id) then setFirst (fun x => x.id = r.id) r store
  else store ++ [r]

/-- The notes loop of `handleImportFile` (src/app.js lines 676-687).
`fail r` says whether the store write of `r` rejects; the loop body
runs inside the single try/catch of `handleImportFile`, so a rejected
write throws out of the loop at once. For each candidate:
- when `state.notes.find` locates an existing record with the same id
  (`===` on the id fields, so two absent ids also match),
  `Object.assign` merges into that object in place first, and the store
  write of the merged record follows;
- otherwise the store write of the candidate comes first and the push
  onto the mirror follows.
Returns (store, mirror, completed-without-throwing). -/
def importNotes (fail : CandNote → Bool) :
    List CandNote → List CandNote → List CandNote → List CandNote × List CandNote × Bool
  | store, mirror, [] => (store, mirror, true)
  | store, mirror, c :: cs =>
    match mirror.find? (fun n => n.id = c.id) with
    | some ex =>
      let merged := objAssignN ex c
      let mirror1 := setFirst (fun n => n.id = c.id) merged mirror
      if fail merged then (store, mirror1, false)
      else importNotes fail (putCandNoteStore merged store) mirror1 cs
    | none =>
      if fail c then (store, mirror, false)
      else importNotes fail (putCandNoteStore c store) (mirror ++ [c]) cs

/-- The tools loop of `handleImportFile` (src/app.js lines 690-701). -/
def importTools (fail : CandTool → Bool) :
    List CandTool → List CandTool → List CandTool → List CandTool × List CandTool × Bool
  | store, mirror, [] => (store, mirror, true)
  | store, mirror, c :: cs =>
    match mirror.find? (fun n => n.id = c.id) with
    | some ex =>
      let merged := objAssignT ex c
      let mirror1 := setFirst (fun n => n.id = c.id) merged mirror
      if fail merged then (store, mirror1, false)
      else importTools fail (putCandToolStore merged store) mirror1 cs
    | none =>
      if fail c then (store, mirror, false)
      else importTools fail (putCandToolStore c store) (mirror ++ [c]) cs

/-- The parsed import file: `data.notes` / `data.tools` are `none` when
the parsed JSON lacks the key (both `undefined` and `null` are falsy,
and an array, even empty, is truthy, so the validation
`if (!data.notes || !data.tools)` rejects exactly the `none` cases). -/
structure Snapshot where
  notes : Option (List CandNote)
  tools : Option (List CandTool)
  exportedAt : Option Nat
deriving Repr

/-- The user-visible outcome of `handleImportFile`. -/
inductive ImpStatus where
  /-- the success alert, reporting `data.notes.length` and `data.tools.length` -/
  | success (nNotes nTools : Nat)
  /-- the catch branch: a store write rejected mid-import -/
  | writeFailed
  /-- the validation branch: missing top-level key -/
  | invalidFormat
deriving DecidableEq, Repr

/-- The state left behind by `handleImportFile`. -/
structure ImportResult where
  storeN : List CandNote
  notesM : List CandNote
  storeT : List CandTool
  toolsM : List CandTool
  status : ImpStatus
deriving DecidableEq, Repr

/-- `handleImportFile` (src/app.js lines 661-715) after JSON parsing:
validation, then the notes loop, then the tools loop, all inside one
try/catch, then the success alert reporting the candidate counts.
A throw in the notes loop skips the tools loop entirely. -/
def handleImportFile (failN : CandNote → Bool) (failT : CandTool → Bool)
    (sn : Snapshot) (storeN : List CandNote) (notesM : List CandNote)
    (storeT : List CandTool) (toolsM : List CandTool) : ImportResult :=
  match sn.notes, sn.tools with
  | some ns, some ts =>
    let rn := importNotes failN storeN notesM ns
    if rn.2.2 then
      let rt := importTools failT storeT toolsM ts
      if rt.2.2 then ⟨rn.1, rn.2.1, rt.1, rt.2.1, .success ns.length ts.length⟩
      else ⟨rn.1, rn.2.1, rt.1, rt.2.1, .writeFailed⟩
    else ⟨rn.1, rn.2.1, storeT, toolsM, .writeFailed⟩
  | _, _ => ⟨storeN, notesM, storeT, toolsM, .invalidFormat⟩

/-- `exportData` (src/app.js lines 638-655): the snapshot holds the two
mirror lists and an `exportedAt` timestamp. -/
def exportData (notesM : List CandNote) (toolsM : List CandTool) (now : Nat) :
    Snapshot :=
  ⟨some notesM, some toolsM, some now⟩

/-! ## Operation traces over the in-memory mirrors

For the timestamp invariant we model the effect on the mirrors of the
user-reachable operations: creating a record, saving an existing
record from the editor or modal (which also covers the pin, archive
and required-field edits, all of which go through `saveNote` /
`saveTool` on a mirror-resident record), deleting, toggling a
favorite, and running an import. The mirrors use the JSON-record
shape, since imports can put arbitrary JSON objects into them. Each
time-taking operation carries the wall-clock reading `now` at which it
runs; the ghost field `clock` records the last reading. -/

structure AppSt where
  notes : List CandNote
  tools : List CandTool
  clock : Nat
deriving DecidableEq, Repr

/-- `createNote` (src/app.js lines 122-134) as a JSON-shaped record:
every field present, both timestamps read from the clock. -/
def createNote (id : String) (now : Nat) : CandNote where
  id := some id
  title := some "Untitled Note"
  content := some ""
  tags := some []
  pinned := some false
  archived := some false
  createdAt := some now
  updatedAt := some now

/-- `createTool` (src/app.js lines 386-397). -/
def createTool (id : String) (now : Nat) : CandTool where
  id := some id
  name := some ""
  url := some ""
  description := some ""
  tags := some []
  favorite := some false
  createdAt := some now
  updatedAt := some now

inductive Op where
  /-- the new-note button: `createNote`, push, `saveNote` (which stamps
  `updatedAt` and replaces the just-pushed aliased entry) -/
  | newN (id : String) (now : Nat)
  /-- `saveCurrentNote`, `pin-note-btn` and `archive-note-btn`: the
  mirror-resident record with this id gets the given content fields and
  `updatedAt := now` through `saveNote` -/
  | saveN (id : String) (title content : String) (tags : List String)
      (pinned archived : Bool) (now : Nat)
  /-- `deleteNote` after confirm -/
  | delN (id : String)
  /-- `saveToolFromModal` on a fresh `createTool`: `name`, `url`,
  `description`, `tags` from the form, then `saveTool` -/
  | newT (id name url desc : String) (tags : List String) (now : Nat)
  /-- `saveToolFromModal` on an existing tool -/
  | saveT (id name url desc : String) (tags : List String) (now : Nat)
  /-- `toggleFavorite`: flip the flag and `saveTool`; a no-op when the
  id is not in the mirror (`!tool.favorite` reads an absent field as
  falsy) -/
  | toggleF (id : String) (now : Nat)
  /-- `deleteTool` after confirm -/
  | delT (id : String)
  /-- `handleImportFile` on a valid snapshot, with the given store-write
  outcomes -/
  | impOp (failN : CandNote → Bool) (failT : CandTool → Bool)
      (ns : List CandNote) (ts : List CandTool) (now : Nat)

/-- Effect of one operation on the mirrors (store omitted: the claim
concerns the mirrors; the mirror evolution in `importNotes` /
`importTools` does not depend on the store value). -/
def stepOp (s : AppSt) : Op → AppSt
  | .newN id now => { s with notes := s.notes ++ [createNote id now], clock := now }
  | .saveN id title content tags pinned archived now =>
    { s with
      notes := s.notes.map (fun r =>
        if r.id = some id then
          { r with title := some title, content := some content,
                   tags := some tags, pinned := some pinned,
                   archived := some archived, updatedAt := some now }
        else r)
      clock := now }
  | .delN id => { s with notes := s.notes.filter (fun r => !(r.id = some id)) }
  | .newT id name url desc tags now =>
    { s with
      tools := s.tools ++
        [{ (createTool id now) with name := some name, url := some url,
                                    description := some desc, tags := some tags }]
      clock := now }
  | .saveT id name url desc tags now =>
    { s with
      tools := s.tools.map (fun r =>
        if r.id = some id then
          { r with name := some name, url := some url,
                   description := some desc, tags := some tags,
                   updatedAt := some now }
        else r)
      clock := now }
  | .toggleF id now =>
    { s with
      tools := s.tools.map (fun r =>
        if r.id = some id then
          { r with favorite := some (!r.favorite.getD false), updatedAt := some now }
        else r)
      clock := now }
  | .delT id => { s with tools := s.tools.filter (fun r => !(r.id = some id)) }
  | .impOp failN failT ns ts now =>
    let rn := importNotes failN [] s.notes ns
    if rn.2.2 then
      let rt := importTools failT [] s.tools ts
      { notes := rn.2.1, tools := rt.2.1, clock := now }
    else { notes := rn.2.1, tools := s.tools, clock := now }

def runOps (s : AppSt) : List Op → AppSt
  | [] => s
  | op :: ops => runOps (stepOp s op) ops

/-- A record carrying both timestamps, consistent
(`createdAt <= updatedAt`) and not claiming a time after `clk`.
This is both the well-formedness condition asked of import candidates
and the strengthened inductive invariant on mirror records. -/
def noteStrong (clk : Nat) (r : CandNote) : Bool :=
  match r.createdAt, r.updatedAt with
  | some cr, some u => cr ≤ u && u ≤ clk
  | _, _ => false

def toolStrong (clk : Nat) (r : CandTool) : Bool :=
  match r.createdAt, r.updatedAt with
  | some cr, some u => cr ≤ u && u ≤ clk
  | _, _ => false

/-- Side conditions under which an operation runs: the clock never goes
backwards, and import snapshots carry only consistent timestamps. -/
def opOk (s : AppSt) : Op → Bool
  | .newN _ now => s.clock ≤ now
  | .saveN _ _ _ _ _ _ now => s.clock ≤ now
  | .delN _ => true
  | .newT _ _ _ _ _ now => s.clock ≤ now
  | .saveT _ _ _ _ _ now => s.clock ≤ now
  | .toggleF _ now => s.clock ≤ now
  | .delT _ => true
  | .impOp _ _ ns ts now =>
    s.clock ≤ now && ns.all (noteStrong now) && ts.all (toolStrong now)

def opsOk (s : AppSt) : List Op → Bool
  | [] => true
  | op :: ops => opOk s op && opsOk (stepOp s op) ops

/-- The strengthened inductive invariant: every record carries both
timestamps, `createdAt <= updatedAt`, and no timestamp is ahead of the
clock. -/
def stInv (s : AppSt) : Bool :=
  s.notes.all (noteStrong s.clock) && s.tools.all (toolStrong s.clock)

/-- The claimed invariant: whenever a mirror record carries both
timestamps, `updatedAt >= createdAt`. -/
def noteTsOk (r : CandNote) : Bool :=
  match r.createdAt, r.updatedAt with
  | some cr, some u => cr ≤ u
  | _, _ => true

def toolTsOk (r : CandTool) : Bool :=
  match r.createdAt, r.updatedAt with
  | some cr, some u => cr ≤ u
  | _, _ => true

def tsInv (s : AppSt) : Bool :=
  s.notes.all noteTsOk && s.tools.all toolTsOk

/-! ## The query pipeline as a state-reading computation

`filterAndSortNotes` / `filterAndSortTools` read `state.notes` /
`state.tools`, `state.activeTagFilter` and the two DOM inputs, and
write nothing: the only in-place operation in their bodies is
`filtered.sort(...)`, applied to the fresh copy made by
`[...state.notes]` on the first line. To state that, the embedding
threads the readable state through the call explicitly and returns
the state the call leaves behind. -/

/-- Everything the two query functions can read. -/
structure QueryEnv where
  notes : List Note
  tools : List Tool
  activeTagFilter : Option String
  notesSearch : String
  notesSort : String
  toolsSearch : String
  toolsSort : String
deriving DecidableEq, Repr

/-- `filterAndSortNotes` with the state it leaves behind: the body
copies the mirror (`[...state.notes]`), filters and sorts the copy, and
performs no assignment to any part of the state. -/
def filterAndSortNotesApp (e : QueryEnv) : List Note × QueryEnv :=
  (filterAndSortNotes e.notes e.activeTagFilter e.notesSearch e.notesSort, e)

/-- `filterAndSortTools` with the state it leaves behind. -/
def filterAndSortToolsApp (e : QueryEnv) : List Tool × QueryEnv :=
  (filterAndSortTools e.tools e.activeTagFilter e.toolsSearch e.toolsSort, e)

/-- All fields of a note except `updatedAt`. -/
def noteSansU (n : Note) : String × String × String × List String × Bool × Bool × Nat :=
  (n.id, n.title, n.content, n.tags, n.pinned, n.archived, n.createdAt)

/-- All fields of a tool except `updatedAt`. -/
def toolSansU (n : Tool) : String × String × String × String × List String × Bool × Nat :=
  (n.id, n.name, n.url, n.description, n.tags, n.favorite, n.createdAt)

/-! ## Helper lemmas -/

theorem insCmp_perm (c : α → α → Int) (x : α) (l : List α) :
    List.Perm (insCmp c x l) (x :: l) := by
  induction l with
  | nil => simp [insCmp]
  | cons y ys ih =>
    simp only [insCmp]
    by_cases h : c y x ≤ 0
    · simp only [if_pos h]
      exact ((ih.cons y).trans (List.Perm.swap x y ys))
    · simp [if_neg h]

theorem foldl_insCmp_perm (c : α → α → Int) (l acc : List α) :
    List.Perm (l.foldl (fun a x => insCmp c x a) acc) (acc ++ l) := by
  induction l generalizing acc with
  | nil => simp
  | cons h t ih =>
    simp only [List.foldl_cons]
    refine (ih (insCmp c h acc)).trans ?_
    refine (List.Perm.append_right t (insCmp_perm c h acc)).trans ?_
    exact List.perm_middle.symm.trans (by simp)

theorem jsSort_perm (c : α → α → Int) (l : List α) :
    List.Perm (jsSort c l) l := by
  simpa [jsSort] using foldl_insCmp_perm c l []

theorem mem_jsSort {c : α → α → Int} {l : List α} {a : α} :
    a ∈ jsSort c l ↔ a ∈ l :=
  (jsSort_perm c l).mem_iff

theorem filter_filter_same (p : α → Bool) (l : List α) :
    (l.filter p).filter p = l.filter p := by
  induction l with
  | nil => rfl
  | cons x xs ih =>
    by_cases h : p x
    · simp [List.filter_cons, h, ih]
    · simp [List.filter_cons, h, ih]

theorem filter_not_filter (p : α → Bool) (l : List α) :
    (l.filter (fun a => !p a)).filter p = [] := by
  induction l with
  | nil => rfl
  | cons x xs ih =>
    by_cases h : p x
    · simp [List.filter_cons, h, ih]
    · simp [List.filter_cons, h, ih]

theorem pairwise_front_back (p : α → Bool) (l₁ l₂ : List α)
    (h1 : ∀ a ∈ l₁, p a = true) (h2 : ∀ a ∈ l₂, p a = false) :
    List.Pairwise (fun a b => p a = true ∨ p b = false) (l₁ ++ l₂) := by
  rw [List.pairwise_append]
  refine ⟨?_, ?_, ?_⟩
  · induction l₁ with
    | nil => exact List.Pairwise.nil
    | cons x xs ih =>
      exact List.Pairwise.cons (fun y _ => Or.inl (h1 x (List.mem_cons_self x xs)))
        (ih (fun a ha => h1 a (List.mem_cons_of_mem x ha)))
  · induction l₂ with
    | nil => exact List.Pairwise.nil
    | cons x xs ih =>
      exact List.Pairwise.cons (fun y hy => Or.inr (h2 y (List.mem_cons_of_mem x hy)))
        (ih (fun a ha => h2 a (List.mem_cons_of_mem x ha)))
  · exact fun a ha b hb => Or.inl (h1 a ha)

theorem mem_setFirst {p : α → Bool} {v : α} {l : List α} {a : α}
    (h : a ∈ setFirst p v l) : a = v ∨ a ∈ l := by
  induction l with
  | nil => simp [setFirst] at h
  | cons x xs ih =>
    simp only [setFirst] at h
    by_cases hx : p x
    · rw [if_pos hx] at h
      rcases List.mem_cons.mp h with h | h
      · exact Or.inl h
      · exact Or.inr (List.mem_cons_of_mem x h)
    · rw [if_neg hx] at h
      rcases List.mem_cons.mp h with h | h
      · exact Or.inr (h ▸ List.mem_cons_self x xs)
      · rcases ih h with h | h
        · exact Or.inl h
        · exact Or.inr (List.mem_cons_of_mem x h)

theorem setFirst_find?_self {p : α → Bool} {v : α} {l : List α}
    (h : l.find? p = some v) : setFirst p v l = l := by
  induction l with
  | nil => simp at h
  | cons x xs ih =>
    simp only [setFirst]
    by_cases hx : p x
    · rw [List.find?_cons_of_pos _ hx] at h
      rw [if_pos hx]
      simp_all
    · rw [List.find?_cons_of_neg _ hx] at h
      rw [if_neg hx, ih h]

theorem find?_key_self {β : Type} [DecidableEq β] (key : α → β) {l : List α} {c : α}
    (hdist : l.Pairwise (fun a b => key a ≠ key b)) (hc : c ∈ l) :
    l.find? (fun x => key x = key c) = some c := by
  induction l with
  | nil => simp at hc
  | cons x xs ih =>
    rcases List.pairwise_cons.mp hdist with ⟨hx, hxs⟩
    rcases List.mem_cons.mp hc with rfl | hc
    · exact List.find?_cons_of_pos _ (by simp)
    · have hne : key x ≠ key c := hx c hc
      rw [List.find?_cons_of_neg _ (by simpa using hne)]
      exact ih hxs hc

theorem ovr_self (o : Option α) : ovr o o = o := by cases o <;> rfl

theorem objAssignN_self (c : CandNote) : objAssignN c c = c := by
  cases c
  simp [objAssignN, ovr_self]

theorem objAssignT_self (c : CandTool) : objAssignT c c = c := by
  cases c
  simp [objAssignT, ovr_self]

/-- Re-importing records that are already in the mirror, with pairwise
distinct ids and no store-write failure, leaves the mirror unchanged. -/
theorem importNotes_mem_self (st : List CandNote) (m l : List CandNote)
    (hdist : m.Pairwise (fun a b => a.id ≠ b.id)) (hsub : ∀ c ∈ l, c ∈ m) :
    (importNotes (fun _ => false) st m l).2 = (m, true) := by
  induction l generalizing st with
  | nil => rfl
  | cons c cs ih =>
    have hc : c ∈ m := hsub c (List.mem_cons_self c cs)
    have hfind : m.find? (fun x => x.id = c.id) = some c :=
      find?_key_self (fun r => r.id) hdist hc
    simp only [importNotes, hfind, objAssignN_self, setFirst_find?_self hfind]
    exact ih _ (fun d hd => hsub d (List.mem_cons_of_mem c hd))

theorem importTools_mem_self (st : List CandTool) (m l : List CandTool)
    (hdist : m.Pairwise (fun a b => a.id ≠ b.id)) (hsub : ∀ c ∈ l, c ∈ m) :
    (importTools (fun _ => false) st m l).2 = (m, true) := by
  induction l generalizing st with
  | nil => rfl
  | cons c cs ih =>
    have hc : c ∈ m := hsub c (List.mem_cons_self c cs)
    have hfind : m.find? (fun x => x.id = c.id) = some c :=
      find?_key_self (fun r => r.id) hdist hc
    simp only [importTools, hfind, objAssignT_self, setFirst_find?_self hfind]
    exact ih _ (fun d hd => hsub d (List.mem_cons_of_mem c hd))

/-- Predicate preservation through the notes import loop: when every
mirror record satisfies `Q`, every candidate satisfies `Q`, and merging
a candidate into any record yields a record satisfying `Q`, then every
record of the resulting mirror satisfies `Q`, whether or not the loop
aborted. -/
theorem importNotes_all {Q : CandNote → Bool} {fail : CandNote → Bool}
    (st m l : List CandNote)
    (hm : ∀ r ∈ m, Q r = true)
    (hl : ∀ c ∈ l, Q c = true ∧ ∀ ex, Q (objAssignN ex c) = true) :
    ∀ r ∈ (importNotes fail st m l).2.1, Q r = true := by
  induction l generalizing st m with
  | nil => exact fun r hr => hm r hr
  | cons c cs ih =>
    intro r hr
    cases hfind : m.find? (fun n => n.id = c.id) with
    | none =>
      simp only [importNotes, hfind] at hr
      by_cases hf : fail c
      · rw [if_pos hf] at hr
        exact hm r hr
      · rw [if_neg hf] at hr
        refine ih _ _ ?_ (fun d hd => hl d (List.mem_cons_of_mem c hd)) r hr
        intro x hx
        rcases List.mem_append.mp hx with hx | hx
        · exact hm x hx
        · have hxc : x = c := List.mem_singleton.mp hx
          exact hxc ▸ (hl c (List.mem_cons_self c cs)).1
    | some ex =>
      simp only [importNotes, hfind] at hr
      have hmerged : Q (objAssignN ex c) = true :=
        (hl c (List.mem_cons_self c cs)).2 ex
      have hm1 : ∀ x ∈ setFirst (fun n => n.id = c.id) (objAssignN ex c) m,
          Q x = true := by
        intro x hx
        rcases mem_setFirst hx with hx | hx
        · exact hx ▸ hmerged
        · exact hm x hx
      by_cases hf : fail (objAssignN ex c)
      · rw [if_pos hf] at hr
        exact hm1 r hr
      · rw [if_neg hf] at hr
        exact ih _ _ hm1 (fun d hd => hl d (List.mem_cons_of_mem c hd)) r hr

/-- Predicate preservation through the tools import loop. -/
theorem importTools_all {Q : CandTool → Bool} {fail : CandTool → Bool}
    (st m l : List CandTool)
    (hm : ∀ r ∈ m, Q r = true)
    (hl : ∀ c ∈ l, Q c = true ∧ ∀ ex, Q (objAssignT ex c) = true) :
    ∀ r ∈ (importTools fail st m l).2.1, Q r = true := by
  induction l generalizing st m with
  | nil => exact fun r hr => hm r hr
  | cons c cs ih =>
    intro r hr
    cases hfind : m.find? (fun n => n.id = c.id) with
    | none =>
      simp only [importTools, hfind] at hr
      by_cases hf : fail c
      · rw [if_pos hf] at hr
        exact hm r hr
      · rw [if_neg hf] at hr
        refine ih _ _ ?_ (fun d hd => hl d (List.mem_cons_of_mem c hd)) r hr
        intro x hx
        rcases List.mem_append.mp hx with hx | hx
        · exact hm x hx
        · have hxc : x = c := List.mem_singleton.mp hx
          exact hxc ▸ (hl c (List.mem_cons_self c cs)).1
    | some ex =>
      simp only [importTools, hfind] at hr
      have hmerged : Q (objAssignT ex c) = true :=
        (hl c (List.mem_cons_self c cs)).2 ex
      have hm1 : ∀ x ∈ setFirst (fun n => n.id = c.id) (objAssignT ex c) m,
          Q x = true := by
        intro x hx
        rcases mem_setFirst hx with hx | hx
        · exact hx ▸ hmerged
        · exact hm x hx
      by_cases hf : fail (objAssignT ex c)
      · rw [if_pos hf] at hr
        exact hm1 r hr
      · rw [if_neg hf] at hr
        exact ih _ _ hm1 (fun d hd => hl d (List.mem_cons_of_mem c hd)) r hr

theorem jsToLower_eq_empty {s : String} : jsToLower s = "" ↔ s = "" := by
  cases s with
  | mk d =>
    cases d with
    | nil => simp [jsToLower]
    | cons c cs =>
      constructor
      · intro h
        exact absurd (congrArg String.data h) (by simp [jsToLower])
      · intro h
        exact absurd (congrArg String.data h) (by simp)

theorem mem_noteTagStep {t : String} (ht : t ≠ "") {l : List Note} {r : Note} :
    r ∈ noteTagStep (some t) l ↔ r ∈ l ∧ r.tags.contains t = true := by
  simp [noteTagStep, ht, List.mem_filter]

theorem mem_toolTagStep {t : String} (ht : t ≠ "") {l : List Tool} {r : Tool} :
    r ∈ toolTagStep (some t) l ↔ r ∈ l ∧ r.tags.contains t = true := by
  simp [toolTagStep, ht, List.mem_filter]

theorem mem_noteSearchStep {raw : String} {l : List Note} {r : Note} :
    r ∈ noteSearchStep raw l ↔ r ∈ l ∧ notePassSearch raw r = true := by
  by_cases h : jsToLower raw = ""
  · simp [noteSearchStep, notePassSearch, h]
  · simp [noteSearchStep, notePassSearch, h, List.mem_filter]

theorem mem_toolSearchStep {raw : String} {l : List Tool} {r : Tool} :
    r ∈ toolSearchStep raw l ↔ r ∈ l ∧ toolPassSearch raw r = true := by
  by_cases h : jsToLower raw = ""
  · simp [toolSearchStep, toolPassSearch, h]
  · simp [toolSearchStep, toolPassSearch, h, List.mem_filter]

theorem mem_filterAndSortNotes {m : List Note} {tf : Option String}
    {raw sb : String} {r : Note} :
    r ∈ filterAndSortNotes m tf raw sb ↔
      r ∈ noteSearchStep raw (noteTagStep tf m) := by
  simp only [filterAndSortNotes, noteSortStep]
  constructor
  · intro h
    rcases List.mem_append.mp h with h | h
    · exact mem_jsSort.mp (List.mem_filter.mp h).1
    · exact mem_jsSort.mp (List.mem_filter.mp h).1
  · intro h
    have hs : r ∈ jsSort (noteCmp sb) (noteSearchStep raw (noteTagStep tf m)) :=
      mem_jsSort.mpr h
    by_cases hp : r.pinned
    · exact List.mem_append.mpr (Or.inl (List.mem_filter.mpr ⟨hs, hp⟩))
    · exact List.mem_append.mpr (Or.inr (List.mem_filter.mpr ⟨hs, by simp [hp]⟩))

theorem mem_filterAndSortTools {m : List Tool} {tf : Option String}
    {raw sb : String} {r : Tool} :
    r ∈ filterAndSortTools m tf raw sb ↔
      r ∈ toolSearchStep raw (toolTagStep tf m) := by
  simp only [filterAndSortTools, toolSortStep]
  constructor
  · intro h
    rcases List.mem_append.mp h with h | h
    · exact mem_jsSort.mp (List.mem_filter.mp h).1
    · exact mem_jsSort.mp (List.mem_filter.mp h).1
  · intro h
    have hs : r ∈ jsSort (toolCmp sb) (toolSearchStep raw (toolTagStep tf m)) :=
      mem_jsSort.mpr h
    by_cases hp : r.favorite
    · exact List.mem_append.mpr (Or.inl (List.mem_filter.mpr ⟨hs, hp⟩))
    · exact List.mem_append.mpr (Or.inr (List.mem_filter.mpr ⟨hs, by simp [hp]⟩))

theorem noteStrong_iff {clk : Nat} {r : CandNote} :
    noteStrong clk r = true ↔
      ∃ cr u, r.createdAt = some cr ∧ r.updatedAt = some u ∧ cr ≤ u ∧ u ≤ clk := by
  obtain ⟨i, t, c, tg, p, a, cr, u⟩ := r
  cases cr <;> cases u <;> simp [noteStrong]

theorem toolStrong_iff {clk : Nat} {r : CandTool} :
    toolStrong clk r = true ↔
      ∃ cr u, r.createdAt = some cr ∧ r.updatedAt = some u ∧ cr ≤ u ∧ u ≤ clk := by
  obtain ⟨i, n, ur, d, tg, f, cr, u⟩ := r
  cases cr <;> cases u <;> simp [toolStrong]

theorem noteStrong_mono {clk clk2 : Nat} {r : CandNote}
    (h : noteStrong clk r = true) (hle : clk ≤ clk2) : noteStrong clk2 r = true := by
  obtain ⟨cr, u, hc, hu, h1, h2⟩ := noteStrong_iff.mp h
  exact noteStrong_iff.mpr ⟨cr, u, hc, hu, h1, h2.trans hle⟩

theorem toolStrong_mono {clk clk2 : Nat} {r : CandTool}
    (h : toolStrong clk r = true) (hle : clk ≤ clk2) : toolStrong clk2 r = true := by
  obtain ⟨cr, u, hc, hu, h1, h2⟩ := toolStrong_iff.mp h
  exact toolStrong_iff.mpr ⟨cr, u, hc, hu, h1, h2.trans hle⟩

theorem noteStrong_objAssign {now : Nat} {c : CandNote}
    (h : noteStrong now c = true) (ex : CandNote) :
    noteStrong now (objAssignN ex c) = true := by
  obtain ⟨cr, u, hc, hu, h1, h2⟩ := noteStrong_iff.mp h
  exact noteStrong_iff.mpr
    ⟨cr, u, by simp [objAssignN, ovr, hc], by simp [objAssignN, ovr, hu], h1, h2⟩

theorem toolStrong_objAssign {now : Nat} {c : CandTool}
    (h : toolStrong now c = true) (ex : CandTool) :
    toolStrong now (objAssignT ex c) = true := by
  obtain ⟨cr, u, hc, hu, h1, h2⟩ := toolStrong_iff.mp h
  exact toolStrong_iff.mpr
    ⟨cr, u, by simp [objAssignT, ovr, hc], by simp [objAssignT, ovr, hu], h1, h2⟩

/-- One operation preserves the strengthened invariant. -/
theorem stInv_step {s : AppSt} {op : Op}
    (hs : stInv s = true) (hop : opOk s op = true) : stInv (stepOp s op) = true := by
  have hn : ∀ r ∈ s.notes, noteStrong s.clock r = true := by
    intro r hr
    have := (Bool.and_eq_true _ _).mp hs
    exact List.all_eq_true.mp this.1 r hr
  have htl : ∀ r ∈ s.tools, toolStrong s.clock r = true := by
    intro r hr
    have := (Bool.and_eq_true _ _).mp hs
    exact List.all_eq_true.mp this.2 r hr
  cases op with
  | newN id now =>
    have hclk : s.clock ≤ now := by simpa [opOk] using hop
    simp only [stepOp, stInv, Bool.and_eq_true, List.all_eq_true]
    constructor
    · intro r hr
      rcases List.mem_append.mp hr with hr | hr
      · exact noteStrong_mono (hn r hr) hclk
      · have hre : r = createNote id now := List.mem_singleton.mp hr
        subst hre
        simp [noteStrong, createNote]
    · intro r hr
      exact toolStrong_mono (htl r hr) hclk
  | saveN id title content tags pinned archived now =>
    have hclk : s.clock ≤ now := by simpa [opOk] using hop
    simp only [stepOp, stInv, Bool.and_eq_true, List.all_eq_true]
    constructor
    · intro r hr
      rcases List.mem_map.mp hr with ⟨x, hx, rfl⟩
      obtain ⟨cr, u, hc, hu, h1, h2⟩ := noteStrong_iff.mp (hn x hx)
      by_cases hid : x.id = some id
      · rw [if_pos hid]
        exact noteStrong_iff.mpr
          ⟨cr, now, hc, rfl, h1.trans (h2.trans hclk), le_refl now⟩
      · rw [if_neg hid]
        exact noteStrong_mono (noteStrong_iff.mpr ⟨cr, u, hc, hu, h1, h2⟩) hclk
    · intro r hr
      exact toolStrong_mono (htl r hr) hclk
  | delN id =>
    simp only [stepOp, stInv, Bool.and_eq_true, List.all_eq_true]
    exact ⟨fun r hr => hn r (List.mem_filter.mp hr).1, fun r hr => htl r hr⟩
  | newT id name url desc tags now =>
    have hclk : s.clock ≤ now := by simpa [opOk] using hop
    simp only [stepOp, stInv, Bool.and_eq_true, List.all_eq_true]
    constructor
    · intro r hr
      exact noteStrong_mono (hn r hr) hclk
    · intro r hr
      rcases List.mem_append.mp hr with hr | hr
      · exact toolStrong_mono (htl r hr) hclk
      · have hre := List.mem_singleton.mp hr
        subst hre
        simp [toolStrong, createTool]
  | saveT id name url desc tags now =>
    have hclk : s.clock ≤ now := by simpa [opOk] using hop
    simp only [stepOp, stInv, Bool.and_eq_true, List.all_eq_true]
    constructor
    · intro r hr
      exact noteStrong_mono (hn r hr) hclk
    · intro r hr
      rcases List.mem_map.mp hr with ⟨x, hx, rfl⟩
      obtain ⟨cr, u, hc, hu, h1, h2⟩ := toolStrong_iff.mp (htl x hx)
      by_cases hid : x.id = some id
      · rw [if_pos hid]
        exact toolStrong_iff.mpr
          ⟨cr, now, hc, rfl, h1.trans (h2.trans hclk), le_refl now⟩
      · rw [if_neg hid]
        exact toolStrong_mono (toolStrong_iff.mpr ⟨cr, u, hc, hu, h1, h2⟩) hclk
  | toggleF id now =>
    have hclk : s.clock ≤ now := by simpa [opOk] using hop
    simp only [stepOp, stInv, Bool.and_eq_true, List.all_eq_true]
    constructor
    · intro r hr
      exact noteStrong_mono (hn r hr) hclk
    · intro r hr
      rcases List.mem_map.mp hr with ⟨x, hx, rfl⟩
      obtain ⟨cr, u, hc, hu, h1, h2⟩ := toolStrong_iff.mp (htl x hx)
      by_cases hid : x.id = some id
      · rw [if_pos hid]
        exact toolStrong_iff.mpr
          ⟨cr, now, hc, rfl, h1.trans (h2.trans hclk), le_refl now⟩
      · rw [if_neg hid]
        exact toolStrong_mono (toolStrong_iff.mpr ⟨cr, u, hc, hu, h1, h2⟩) hclk
  | delT id =>
    simp only [stepOp, stInv, Bool.and_eq_true, List.all_eq_true]
    exact ⟨fun r hr => hn r hr, fun r hr => htl r (List.mem_filter.mp hr).1⟩
  | impOp failN failT ns ts now =>
    have hop2 : s.clock ≤ now ∧ (∀ c ∈ ns, noteStrong now c = true) ∧
        (∀ c ∈ ts, toolStrong now c = true) := by
      simp only [opOk, Bool.and_eq_true, List.all_eq_true, decide_eq_true_eq] at hop
      exact ⟨hop.1.1, hop.1.2, hop.2⟩
    have hnotes : ∀ r ∈ (importNotes failN [] s.notes ns).2.1,
        noteStrong now r = true := by
      refine importNotes_all _ _ _ (fun r hr => noteStrong_mono (hn r hr) hop2.1) ?_
      intro c hc
      exact ⟨hop2.2.1 c hc, fun ex => noteStrong_objAssign (hop2.2.1 c hc) ex⟩
    have htools : ∀ r ∈ (importTools failT [] s.tools ts).2.1,
        toolStrong now r = true := by
      refine importTools_all _ _ _ (fun r hr => toolStrong_mono (htl r hr) hop2.1) ?_
      intro c hc
      exact ⟨hop2.2.2 c hc, fun ex => toolStrong_objAssign (hop2.2.2 c hc) ex⟩
    simp only [stepOp]
    by_cases hok : (importNotes failN [] s.notes ns).2.2
    · rw [if_pos hok]
      simp only [stInv, Bool.and_eq_true, List.all_eq_true]
      exact ⟨hnotes, htools⟩
    · rw [if_neg hok]
      simp only [stInv, Bool.and_eq_true, List.all_eq_true]
      exact ⟨hnotes, fun r hr => toolStrong_mono (htl r hr) hop2.1⟩

theorem stInv_runOps {s : AppSt} {ops : List Op}
    (hs : stInv s = true) (hops : opsOk s ops = true) :
    stInv (runOps s ops) = true := by
  induction ops generalizing s with
  | nil => exact hs
  | cons op ops ih =>
    simp only [opsOk, Bool.and_eq_true] at hops
    exact ih (stInv_step hs hops.1) hops.2

theorem noteTsOk_of_strong {clk : Nat} {r : CandNote}
    (h : noteStrong clk r = true) : noteTsOk r = true := by
  obtain ⟨cr, u, hc, hu, h1, h2⟩ := noteStrong_iff.mp h
  unfold noteTsOk
  rw [hc, hu]
  simpa using h1

theorem toolTsOk_of_strong {clk : Nat} {r : CandTool}
    (h : toolStrong clk r = true) : toolTsOk r = true := by
  obtain ⟨cr, u, hc, hu, h1, h2⟩ := toolStrong_iff.mp h
  unfold toolTsOk
  rw [hc, hu]
  simpa using h1

theorem stInv_imp_tsInv {s : AppSt} (h : stInv s = true) : tsInv s = true := by
  simp only [stInv, tsInv, Bool.and_eq_true, List.all_eq_true] at h ⊢
  exact ⟨fun r hr => noteTsOk_of_strong (h.1 r hr),
    fun r hr => toolTsOk_of_strong (h.2 r hr)⟩

theorem filter_filter_not (p : α → Bool) (l : List α) :
    (l.filter p).filter (fun a => !p a) = [] := by
  induction l with
  | nil => rfl
  | cons x xs ih =>
    by_cases h : p x
    · simp [List.filter_cons, h, ih]
    · simp [List.filter_cons, h, ih]

/-! ## Claim theorems -/

/-- C5: for every mirror list and every query spec, the final step of the
query pipeline is a stable partition on the priority flag: the result is
the priority records of the sorted intermediate list followed by the
non-priority ones, each group in the order the sort step produced
(stated as: filtering the result by the flag, or by its negation, gives
exactly the corresponding filtering of the sorted list), and in the
result every priority record precedes every non-priority record (the
`Pairwise` conjunct, which in particular rules out a non-priority record
immediately followed by a priority one). Stated for notes (`pinned`) and
tools (`favorite`). -/
theorem claim_C5 (m : List Note) (mt : List Tool) (tf : Option String)
    (raw sb : String) :
    ((filterAndSortNotes m tf raw sb).filter (fun n => n.pinned) =
        (noteSortStep sb (noteSearchStep raw (noteTagStep tf m))).filter
          (fun n => n.pinned)) ∧
    ((filterAndSortNotes m tf raw sb).filter (fun n => !n.pinned) =
        (noteSortStep sb (noteSearchStep raw (noteTagStep tf m))).filter
          (fun n => !n.pinned)) ∧
    List.Pairwise (fun a b => a.pinned = true ∨ b.pinned = false)
      (filterAndSortNotes m tf raw sb) ∧
    ((filterAndSortTools mt tf raw sb).filter (fun n => n.favorite) =
        (toolSortStep sb (toolSearchStep raw (toolTagStep tf mt))).filter
          (fun n => n.favorite)) ∧
    ((filterAndSortTools mt tf raw sb).filter (fun n => !n.favorite) =
        (toolSortStep sb (toolSearchStep raw (toolTagStep tf mt))).filter
          (fun n => !n.favorite)) ∧
    List.Pairwise (fun a b => a.favorite = true ∨ b.favorite = false)
      (filterAndSortTools mt tf raw sb) := by
  refine ⟨?_, ?_, ?_, ?_, ?_, ?_⟩
  · simp only [filterAndSortNotes]
    rw [List.filter_append, filter_filter_same, filter_not_filter, List.append_nil]
  · simp only [filterAndSortNotes]
    rw [List.filter_append, filter_filter_not, filter_filter_same, List.nil_append]
  · simp only [filterAndSortNotes]
    refine pairwise_front_back (fun n : Note => n.pinned) _ _ ?_ ?_
    · exact fun a ha => (List.mem_filter.mp ha).2
    · intro a ha
      have := (List.mem_filter.mp ha).2
      simpa using this
  · simp only [filterAndSortTools]
    rw [List.filter_append, filter_filter_same, filter_not_filter, List.append_nil]
  · simp only [filterAndSortTools]
    rw [List.filter_append, filter_filter_not, filter_filter_same, List.nil_append]
  · simp only [filterAndSortTools]
    refine pairwise_front_back (fun n : Tool => n.favorite) _ _ ?_ ?_
    · exact fun a ha => (List.mem_filter.mp ha).2
    · intro a ha
      have := (List.mem_filter.mp ha).2
      simpa using this

/-- C6 (amended): with the tag filter set to a NON-EMPTY tag `t`, the
query result is sound and complete for the tag filter: every record in
the result carries `t` in its tag sequence (exact, case-sensitive
equality), and every mirror record carrying `t` that passes the search
filter appears in the result. The non-emptiness hypothesis is forced by
the source: `if (state.activeTagFilter)` treats the empty string as
falsy, so an empty-string tag filter skips the filtering step
(see the counterexample theorem). Stated for notes and tools. -/
theorem claim_C6 (t : String) (ht : t ≠ "") (raw sb : String) :
    (∀ m : List Note,
      (∀ r ∈ filterAndSortNotes m (some t) raw sb, r.tags.contains t = true) ∧
      (∀ r ∈ m, r.tags.contains t = true → notePassSearch raw r = true →
        r ∈ filterAndSortNotes m (some t) raw sb)) ∧
    (∀ mt : List Tool,
      (∀ r ∈ filterAndSortTools mt (some t) raw sb, r.tags.contains t = true) ∧
      (∀ r ∈ mt, r.tags.contains t = true → toolPassSearch raw r = true →
        r ∈ filterAndSortTools mt (some t) raw sb)) := by
  refine ⟨fun m => ⟨?_, ?_⟩, fun mt => ⟨?_, ?_⟩⟩
  · intro r hr
    have h1 := mem_filterAndSortNotes.mp hr
    have h2 := (mem_noteSearchStep.mp h1).1
    exact ((mem_noteTagStep ht).mp h2).2
  · intro r hr htag hpass
    exact mem_filterAndSortNotes.mpr
      (mem_noteSearchStep.mpr ⟨(mem_noteTagStep ht).mpr ⟨hr, htag⟩, hpass⟩)
  · intro r hr
    have h1 := mem_filterAndSortTools.mp hr
    have h2 := (mem_toolSearchStep.mp h1).1
    exact ((mem_toolTagStep ht).mp h2).2
  · intro r hr htag hpass
    exact mem_filterAndSortTools.mpr
      (mem_toolSearchStep.mpr ⟨(mem_toolTagStep ht).mpr ⟨hr, htag⟩, hpass⟩)

/-- C6 counterexample: the claim as stated fails for the query spec
whose tag filter is the empty string (a value reachable through a tag
chip rendered from an imported record with an empty tag). The source
guard `if (state.activeTagFilter)` treats it as unset, so the sole
mirror note, whose tag sequence is `["x"]` and does not contain `""`,
is nevertheless returned. -/
theorem claim_C6_counterexample :
    (⟨"1", "a", "b", ["x"], false, false, 0, 0⟩ : Note) ∈
        filterAndSortNotes [⟨"1", "a", "b", ["x"], false, false, 0, 0⟩]
          (some "") "" "updated-desc" ∧
      (["x"] : List String).contains "" = false := by decide

/-- C6 witness: the amended theorem applied at a concrete non-empty tag. -/
theorem claim_C6_witness :
    ("work" : String) ≠ "" ∧
      (⟨"1", "T", "C", ["work"], false, false, 0, 0⟩ : Note) ∈
        filterAndSortNotes [⟨"1", "T", "C", ["work"], false, false, 0, 0⟩]
          (some "work") "" "updated-desc" :=
  ⟨by decide,
    ((claim_C6 "work" (by decide) "" "updated-desc").1 _).2 _ (by decide)
      (by decide) (by decide)⟩

/-- C7: with a non-empty search text, a record passes the search filter
if and only if the lowercased search text occurs as a substring of the
lowercased title or content (notes), or of the lowercased name,
description or url (tools), or of at least one lowercased tag; and the
filter only depends on the lowercase image of the search text, so
matching is case-insensitive. -/
theorem claim_C7 (raw : String) (hraw : raw ≠ "") :
    (∀ (l : List Note) (r : Note),
      r ∈ noteSearchStep raw l ↔
        r ∈ l ∧
          (jsIncludes (jsToLower r.title) (jsToLower raw) ||
            jsIncludes (jsToLower r.content) (jsToLower raw) ||
            r.tags.any (fun tg => jsIncludes (jsToLower tg) (jsToLower raw))) =
            true) ∧
    (∀ (l : List Tool) (r : Tool),
      r ∈ toolSearchStep raw l ↔
        r ∈ l ∧
          (jsIncludes (jsToLower r.name) (jsToLower raw) ||
            jsIncludes (jsToLower r.description) (jsToLower raw) ||
            jsIncludes (jsToLower r.url) (jsToLower raw) ||
            r.tags.any (fun tg => jsIncludes (jsToLower tg) (jsToLower raw))) =
            true) ∧
    (∀ raw2, jsToLower raw2 = jsToLower raw →
      (∀ l : List Note, noteSearchStep raw2 l = noteSearchStep raw l) ∧
      (∀ l : List Tool, toolSearchStep raw2 l = toolSearchStep raw l)) := by
  have hq : ¬(jsToLower raw = "") := fun h => hraw (jsToLower_eq_empty.mp h)
  have hpsN : ∀ r : Note, notePassSearch raw r = noteMatches (jsToLower raw) r := by
    intro r
    simp [notePassSearch, hq]
  have hpsT : ∀ r : Tool, toolPassSearch raw r = toolMatches (jsToLower raw) r := by
    intro r
    simp [toolPassSearch, hq]
  refine ⟨?_, ?_, ?_⟩
  · intro l r
    rw [mem_noteSearchStep, hpsN r]
    exact Iff.rfl
  · intro l r
    rw [mem_toolSearchStep, hpsT r]
    exact Iff.rfl
  · intro raw2 h
    constructor
    · intro l
      simp only [noteSearchStep, h]
    · intro l
      simp only [toolSearchStep, h]

/-- C7 witness: the case-insensitivity consequence applied at two
concrete spellings of the same search text. -/
theorem claim_C7_witness :
    ("AlPha" : String) ≠ "" ∧
      toolSearchStep "ALPHA" [⟨"1", "Alpha", "http://a.com", "", [], false, 0, 0⟩] =
        toolSearchStep "AlPha" [⟨"1", "Alpha", "http://a.com", "", [], false, 0, 0⟩] :=
  ⟨by decide, (((claim_C7 "AlPha" (by decide)).2.2 "ALPHA" (by decide)).2) _⟩

/-- C8: deleting an id absent from both the persistent collection and
the mirror leaves both unchanged and succeeds (the IndexedDB delete
request resolves whether or not the key exists, which is why the
embedding of the delete operation is total), and `toggleFavorite` on an
id absent from the tools mirror returns before touching the store or
the mirror, whatever the store would have answered. -/
theorem claim_C8 :
    (∀ (store mirror : List Note) (i : String),
      (∀ n ∈ store, n.id ≠ i) → (∀ n ∈ mirror, n.id ≠ i) →
        deleteNote store mirror i = (store, mirror)) ∧
    (∀ (store mirror : List Tool) (i : String),
      (∀ n ∈ store, n.id ≠ i) → (∀ n ∈ mirror, n.id ≠ i) →
        deleteTool store mirror i = (store, mirror)) ∧
    (∀ (now : Nat) (writeOk : Bool) (store mirror : List Tool) (i : String),
      (∀ x ∈ mirror, x.id ≠ i) →
        toggleFavorite now writeOk store mirror i = (store, mirror, true)) := by
  refine ⟨?_, ?_, ?_⟩
  · intro st m i hst hm
    have h1 : st.filter (fun n => !(n.id = i)) = st :=
      List.filter_eq_self.mpr (fun a ha => by simp [hst a ha])
    have h2 : m.filter (fun n => !(n.id = i)) = m :=
      List.filter_eq_self.mpr (fun a ha => by simp [hm a ha])
    simp [deleteNote, h1, h2]
  · intro st m i hst hm
    have h1 : st.filter (fun n => !(n.id = i)) = st :=
      List.filter_eq_self.mpr (fun a ha => by simp [hst a ha])
    have h2 : m.filter (fun n => !(n.id = i)) = m :=
      List.filter_eq_self.mpr (fun a ha => by simp [hm a ha])
    simp [deleteTool, h1, h2]
  · intro now ok st m i hm
    have hfind : m.find? (fun t => t.id = i) = none :=
      List.find?_eq_none.mpr (fun x hx => by simp [hm x hx])
    simp [toggleFavorite, hfind]

/-- C8 witness: the theorem applied to a store and mirrors holding one
record each, with an id that matches none of them. -/
theorem claim_C8_witness :
    deleteNote [⟨"a", "t", "c", [], false, false, 0, 0⟩]
        [⟨"a", "t", "c", [], false, false, 0, 0⟩] "zz" =
      ([⟨"a", "t", "c", [], false, false, 0, 0⟩],
        [⟨"a", "t", "c", [], false, false, 0, 0⟩]) ∧
    toggleFavorite 5 true [] [⟨"b", "N", "U", "D", [], false, 0, 0⟩] "zz" =
      ([], [⟨"b", "N", "U", "D", [], false, 0, 0⟩], true) :=
  ⟨claim_C8.1 _ _ "zz" (by decide) (by decide),
    claim_C8.2.2 5 true _ _ "zz" (by decide)⟩

/-- C9: the query pipeline never mutates the mirror or any record in it
(the state it leaves behind is the state it was given — in the source
the only in-place operation is the sort of the fresh copy made by the
spread on the first line), and running it twice on the same state,
threading the left-behind state into the second call, yields the same
result sequence. -/
theorem claim_C9 (e : QueryEnv) :
    (filterAndSortNotesApp e).2 = e ∧ (filterAndSortToolsApp e).2 = e ∧
    (filterAndSortNotesApp ((filterAndSortNotesApp e).2)).1 =
      (filterAndSortNotesApp e).1 ∧
    (filterAndSortToolsApp ((filterAndSortToolsApp e).2)).1 =
      (filterAndSortToolsApp e).1 :=
  ⟨rfl, rfl, rfl, rfl⟩

/-- C1 counterexample: the claim says a failed store write leaves the
mirror, including the `updatedAt` field of the saved record, exactly as before the
call. The source sets `note.updatedAt = new Date().toISOString()`
BEFORE the `await putInStore(...)`; since the record being saved is the
same object as its mirror entry (every save call site of an existing
record obtains it from the mirror), the mirror entry shows the new
`updatedAt` although the write failed. Here: a mirror holding one note
with `updatedAt = 0`, saved at time 1 with a failing write, is no
longer equal to its old value. -/
theorem claim_C1_counterexample :
    (saveNote 1 false true [] [⟨"a", "t", "c", [], false, false, 0, 0⟩]
        ⟨"a", "t", "c", [], false, false, 0, 0⟩).2.1 ≠
      [⟨"a", "t", "c", [], false, false, 0, 0⟩] := by decide

/-- C1 (amended): the store write precedes the mirror list update, so
when the write fails the operation fails and no record is replaced in or
appended to the mirror list: the store is untouched, every field of
every mirror record other than `updatedAt` is untouched (the
`noteSansU`/`toolSansU` image of the mirror is unchanged, which also
fixes the ids, the length and the order), a record whose id differs
from the saved one is wholly untouched, and when the saved record is
not aliased into the mirror the mirror is exactly unchanged. What the
original claim misses is only the `updatedAt` of the saved record, mutated
in place before the write. -/
theorem claim_C1 :
    (∀ (now : Nat) (aliased : Bool) (store mirror : List Note) (note : Note),
      (saveNote now false aliased store mirror note).2.2 = false ∧
      (saveNote now false aliased store mirror note).1 = store ∧
      ((saveNote now false aliased store mirror note).2.1).map noteSansU =
        mirror.map noteSansU ∧
      (aliased = false → (saveNote now false aliased store mirror note).2.1 = mirror) ∧
      (∀ n ∈ mirror, n.id ≠ note.id →
        n ∈ (saveNote now false aliased store mirror note).2.1)) ∧
    (∀ (now : Nat) (aliased : Bool) (store mirror : List Tool) (tool : Tool),
      (saveTool now false aliased store mirror tool).2.2 = false ∧
      (saveTool now false aliased store mirror tool).1 = store ∧
      ((saveTool now false aliased store mirror tool).2.1).map toolSansU =
        mirror.map toolSansU ∧
      (aliased = false → (saveTool now false aliased store mirror tool).2.1 = mirror) ∧
      (∀ n ∈ mirror, n.id ≠ tool.id →
        n ∈ (saveTool now false aliased store mirror tool).2.1)) := by
  constructor
  · intro now aliased st m note
    have hdef : saveNote now false aliased st m note =
        (st,
          (if aliased then
            m.map (fun n => if n.id = note.id then { n with updatedAt := now } else n)
          else m),
          false) := rfl
    refine ⟨by rw [hdef], by rw [hdef], ?_, ?_, ?_⟩
    · rw [hdef]
      cases aliased with
      | false => rfl
      | true =>
        simp only [if_true]
        rw [List.map_map]
        refine List.map_congr_left ?_
        intro a ha
        by_cases hid : a.id = note.id
        · rw [Function.comp_apply, if_pos hid]
          rfl
        · rw [Function.comp_apply, if_neg hid]
    · intro ha
      subst ha
      rfl
    · intro n hn hne
      rw [hdef]
      cases aliased with
      | false => exact hn
      | true =>
        simp only [if_true]
        exact List.mem_map.mpr ⟨n, hn, by rw [if_neg hne]⟩
  · intro now aliased st m tool
    have hdef : saveTool now false aliased st m tool =
        (st,
          (if aliased then
            m.map (fun n => if n.id = tool.id then { n with updatedAt := now } else n)
          else m),
          false) := rfl
    refine ⟨by rw [hdef], by rw [hdef], ?_, ?_, ?_⟩
    · rw [hdef]
      cases aliased with
      | false => rfl
      | true =>
        simp only [if_true]
        rw [List.map_map]
        refine List.map_congr_left ?_
        intro a ha
        by_cases hid : a.id = tool.id
        · rw [Function.comp_apply, if_pos hid]
          rfl
        · rw [Function.comp_apply, if_neg hid]
    · intro ha
      subst ha
      rfl
    · intro n hn hne
      rw [hdef]
      cases aliased with
      | false => exact hn
      | true =>
        simp only [if_true]
        exact List.mem_map.mpr ⟨n, hn, by rw [if_neg hne]⟩

/-- C1 witness: the amended theorem applied to a failing save of a
fresh (non-aliased) record and to a failing aliased save. -/
theorem claim_C1_witness :
    (saveNote 9 false false [⟨"a", "t", "c", [], false, false, 0, 0⟩]
        [⟨"a", "t", "c", [], false, false, 0, 0⟩]
        ⟨"b", "u", "d", [], false, false, 5, 5⟩).2.1 =
      [⟨"a", "t", "c", [], false, false, 0, 0⟩] ∧
    (saveTool 9 false true [] [⟨"a", "N", "U", "D", [], false, 0, 0⟩]
        ⟨"a", "N", "U", "D", [], false, 0, 0⟩).1 = [] :=
  ⟨(claim_C1.1 9 false [⟨"a", "t", "c", [], false, false, 0, 0⟩]
      [⟨"a", "t", "c", [], false, false, 0, 0⟩]
      ⟨"b", "u", "d", [], false, false, 5, 5⟩).2.2.2.1 rfl,
    (claim_C1.2 9 true [] [⟨"a", "N", "U", "D", [], false, 0, 0⟩]
      ⟨"a", "N", "U", "D", [], false, 0, 0⟩).2.1⟩

/-- C2 counterexample: the claim says a failing record is skipped,
processing continues for the remaining records of both collections, and
the report counts only confirmed writes. In the source the whole import
runs in one try/catch, so the first rejected `putInStore` aborts
everything. Here: the write of note n1 fails; under the claim, n2 and
t1 would still be merged and a count of (1 note, 1 tool) reported; the
code leaves both mirrors empty and reports the failure alert. -/
theorem claim_C2_counterexample :
    handleImportFile (fun c => c.id = some "n1") (fun _ => false)
        ⟨some [{ id := some "n1" }, { id := some "n2" }],
          some [{ id := some "t1" }], some 0⟩ [] [] [] [] =
      ⟨[], [], [], [], .writeFailed⟩ := by decide

/-- C2 (amended): a store-write failure mid-import aborts the import
instead of skipping the record: when the notes loop throws, the tools
collection is not processed at all (its store and mirror are returned
untouched) and the failure alert carries no merge count; and the count
the success alert reports is the number of candidate records per
collection — which coincides with the number of confirmed writes only
because the success path requires every write to have succeeded. -/
theorem claim_C2 :
    ∀ (failN : CandNote → Bool) (failT : CandTool → Bool)
      (ns : List CandNote) (ts : List CandTool) (ex : Option Nat)
      (stN mN : List CandNote) (stT : List CandTool) (mT : List CandTool),
      ((importNotes failN stN mN ns).2.2 = false →
        handleImportFile failN failT ⟨some ns, some ts, ex⟩ stN mN stT mT =
          ⟨(importNotes failN stN mN ns).1, (importNotes failN stN mN ns).2.1,
            stT, mT, .writeFailed⟩) ∧
      (∀ a b,
        (handleImportFile failN failT ⟨some ns, some ts, ex⟩ stN mN stT mT).status =
          .success a b → a = ns.length ∧ b = ts.length) := by
  intro failN failT ns ts ex stN mN stT mT
  constructor
  · intro h
    simp [handleImportFile, h]
  · intro a b hs
    simp only [handleImportFile] at hs
    by_cases h1 : (importNotes failN stN mN ns).2.2
    · rw [if_pos h1] at hs
      by_cases h2 : (importTools failT stT mT ts).2.2
      · rw [if_pos h2] at hs
        simp only [ImpStatus.success.injEq] at hs
        exact ⟨hs.1.symm, hs.2.symm⟩
      · rw [if_neg h2] at hs
        exact absurd hs (by simp)
    · rw [if_neg h1] at hs
      exact absurd hs (by simp)

/-- C2 witness: the abort clause of the amended theorem at a one-note
snapshot whose only write fails. -/
theorem claim_C2_witness :
    (importNotes (fun c => c.id = some "x") [] [] [{ id := some "x" }]).2.2 = false ∧
      handleImportFile (fun c => c.id = some "x") (fun _ => false)
          ⟨some [{ id := some "x" }], some [], none⟩ [] [] [] [] =
        ⟨(importNotes (fun c => c.id = some "x") [] [] [{ id := some "x" }]).1,
          (importNotes (fun c => c.id = some "x") [] [] [{ id := some "x" }]).2.1,
          [], [], .writeFailed⟩ :=
  ⟨by decide,
    (claim_C2 (fun c => c.id = some "x") (fun _ => false) [{ id := some "x" }] []
        none [] [] [] []).1 (by decide)⟩

/-- C3 counterexample: the invariant `updatedAt >= createdAt` does NOT
survive every operation sequence: an import merge copies candidate
timestamps unvalidated, so importing a snapshot whose note carries
`createdAt = 2, updatedAt = 1` puts a violating record into the
mirror. -/
theorem claim_C3_counterexample :
    tsInv (runOps ⟨[], [], 0⟩
        [Op.impOp (fun _ => false) (fun _ => false)
          [{ id := some "a", createdAt := some 2, updatedAt := some 1 }] [] 5]) =
      false := by decide

/-- C3 (amended): the invariant `updatedAt >= createdAt` holds for every
mirror record after any sequence of create, save, delete, toggleFavorite
and import operations, provided the clock never goes backwards and
every import candidate carries both timestamps with
`createdAt <= updatedAt <= (time of the import)`; without that proviso
on imported snapshots the invariant fails (see the counterexample). -/
theorem claim_C3 (s : AppSt) (ops : List Op) (hs : stInv s = true)
    (hops : opsOk s ops = true) : tsInv (runOps s ops) = true :=
  stInv_imp_tsInv (stInv_runOps hs hops)

/-- C3 witness: a concrete run mixing creates, saves, a favorite
toggle, a well-timestamped import and a delete, starting from the empty
state. -/
theorem claim_C3_witness :
    stInv ⟨[], [], 0⟩ = true ∧
      opsOk ⟨[], [], 0⟩
          [Op.newN "a" 1,
            Op.saveN "a" "T" "C" ["w"] true false 2,
            Op.newT "b" "N" "U" "D" [] 3,
            Op.toggleF "b" 4,
            Op.impOp (fun _ => false) (fun _ => false)
              [{ id := some "a", createdAt := some 1, updatedAt := some 5 }] [] 5,
            Op.delN "zz"] = true ∧
      tsInv (runOps ⟨[], [], 0⟩
          [Op.newN "a" 1,
            Op.saveN "a" "T" "C" ["w"] true false 2,
            Op.newT "b" "N" "U" "D" [] 3,
            Op.toggleF "b" 4,
            Op.impOp (fun _ => false) (fun _ => false)
              [{ id := some "a", createdAt := some 1, updatedAt := some 5 }] [] 5,
            Op.delN "zz"]) = true :=
  ⟨by decide, by decide, claim_C3 _ _ (by decide) (by decide)⟩

theorem ovr_eq_if (t s : Option α) : ovr t s = if s.isSome then s else t := by
  cases s <;> rfl

/-- C4: per-candidate merge semantics of the import. When the mirror
holds a record with the id of the candidate (the first such record, which is
what `find` locates), the merge replaces that record in place by the
`Object.assign` merge — candidate fields overwrite, fields absent from
the candidate are left untouched (the structure equation with one
`if isSome` per field) — and persists the merged record through the
store upsert; when no record has that id, the candidate itself is
persisted through the store upsert and appended, fields intact, and the
resulting mirror holds exactly one record with that id. Stated for
notes and tools. -/
theorem claim_C4 :
    (∀ (stN m : List CandNote) (c : CandNote),
      (∀ ex, m.find? (fun n => n.id = c.id) = some ex →
        importNotes (fun _ => false) stN m [c] =
          (putCandNoteStore (objAssignN ex c) stN,
            setFirst (fun n => n.id = c.id) (objAssignN ex c) m, true) ∧
        objAssignN ex c =
          { id := if c.id.isSome then c.id else ex.id,
            title := if c.title.isSome then c.title else ex.title,
            content := if c.content.isSome then c.content else ex.content,
            tags := if c.tags.isSome then c.tags else ex.tags,
            pinned := if c.pinned.isSome then c.pinned else ex.pinned,
            archived := if c.archived.isSome then c.archived else ex.archived,
            createdAt := if c.createdAt.isSome then c.createdAt else ex.createdAt,
            updatedAt := if c.updatedAt.isSome then c.updatedAt else ex.updatedAt }) ∧
      (m.find? (fun n => n.id = c.id) = none →
        importNotes (fun _ => false) stN m [c] =
          (putCandNoteStore c stN, m ++ [c], true) ∧
        (m ++ [c]).countP (fun n => n.id = c.id) = 1)) ∧
    (∀ (stT m : List CandTool) (c : CandTool),
      (∀ ex, m.find? (fun n => n.id = c.id) = some ex →
        importTools (fun _ => false) stT m [c] =
          (putCandToolStore (objAssignT ex c) stT,
            setFirst (fun n => n.id = c.id) (objAssignT ex c) m, true) ∧
        objAssignT ex c =
          { id := if c.id.isSome then c.id else ex.id,
            name := if c.name.isSome then c.name else ex.name,
            url := if c.url.isSome then c.url else ex.url,
            description :=
              if c.description.isSome then c.description else ex.description,
            tags := if c.tags.isSome then c.tags else ex.tags,
            favorite := if c.favorite.isSome then c.favorite else ex.favorite,
            createdAt := if c.createdAt.isSome then c.createdAt else ex.createdAt,
            updatedAt := if c.updatedAt.isSome then c.updatedAt else ex.updatedAt }) ∧
      (m.find? (fun n => n.id = c.id) = none →
        importTools (fun _ => false) stT m [c] =
          (putCandToolStore c stT, m ++ [c], true) ∧
        (m ++ [c]).countP (fun n => n.id = c.id) = 1)) := by
  constructor
  · intro stN m c
    constructor
    · intro ex hex
      constructor
      · simp [importNotes, hex]
      · cases c
        cases ex
        simp [objAssignN, ovr_eq_if]
    · intro hnone
      constructor
      · simp [importNotes, hnone]
      · have h0 : m.countP (fun n => n.id = c.id) = 0 :=
          List.countP_eq_zero.mpr (List.find?_eq_none.mp hnone)
        have h1 : List.countP (fun n => n.id = c.id) [c] = 1 := by simp
        rw [List.countP_append, h0, h1]
  · intro stT m c
    constructor
    · intro ex hex
      constructor
      · simp [importTools, hex]
      · cases c
        cases ex
        simp [objAssignT, ovr_eq_if]
    · intro hnone
      constructor
      · simp [importTools, hnone]
      · have h0 : m.countP (fun n => n.id = c.id) = 0 :=
          List.countP_eq_zero.mpr (List.find?_eq_none.mp hnone)
        have h1 : List.countP (fun n => n.id = c.id) [c] = 1 := by simp
        rw [List.countP_append, h0, h1]

/-- C4 witness: the append branch at a concrete candidate with an id
absent from the mirror. -/
theorem claim_C4_witness :
    (([] : List CandNote).find?
        (fun n => n.id = ({ id := some "a", title := some "Y" } : CandNote).id) =
      none) ∧
      (([] : List CandNote) ++ [({ id := some "a", title := some "Y" } : CandNote)]).countP
        (fun n => n.id = ({ id := some "a", title := some "Y" } : CandNote).id) = 1 :=
  ⟨by decide, ((claim_C4.1 [] [] { id := some "a", title := some "Y" }).2
    (by decide)).2⟩

/-- C10: export/import round trip. When the two mirrors hold id-unique
records, importing the snapshot that `exportData` builds from the very
same mirrors leaves both mirrors unchanged (hence the same ids, each
exactly once, with equal field values) and reports full success with
the two candidate counts. -/
theorem claim_C10 (nm : List CandNote) (tm : List CandTool) (now : Nat)
    (hn : nm.Pairwise (fun a b => a.id ≠ b.id))
    (ht : tm.Pairwise (fun a b => a.id ≠ b.id))
    (stN : List CandNote) (stT : List CandTool) :
    (handleImportFile (fun _ => false) (fun _ => false) (exportData nm tm now)
        stN nm stT tm).notesM = nm ∧
    (handleImportFile (fun _ => false) (fun _ => false) (exportData nm tm now)
        stN nm stT tm).toolsM = tm ∧
    (handleImportFile (fun _ => false) (fun _ => false) (exportData nm tm now)
        stN nm stT tm).status = .success nm.length tm.length := by
  have hN := importNotes_mem_self stN nm nm hn (fun c h => h)
  have hT := importTools_mem_self stT tm tm ht (fun c h => h)
  refine ⟨?_, ?_, ?_⟩ <;> simp [handleImportFile, exportData, hN, hT]

/-- C10 witness: the round trip on a one-note, one-tool state. -/
theorem claim_C10_witness :
    ([({ id := some "a", title := some "X" } : CandNote)].Pairwise
        (fun a b => a.id ≠ b.id)) ∧
      ([({ id := some "b", name := some "N" } : CandTool)].Pairwise
        (fun a b => a.id ≠ b.id)) ∧
      (handleImportFile (fun _ => false) (fun _ => false)
          (exportData [{ id := some "a", title := some "X" }]
            [{ id := some "b", name := some "N" }] 7)
          [] [{ id := some "a", title := some "X" }]
          [] [{ id := some "b", name := some "N" }]).notesM =
        [({ id := some "a", title := some "X" } : CandNote)] :=
  ⟨by simp, by simp,
    (claim_C10 [{ id := some "a", title := some "X" }]
      [{ id := some "b", name := some "N" }] 7 (by simp) (by simp) [] []).1⟩

end Notepad
